import Mathlib

/-!
Verification development for the multi-device send module (`multidevice/send.go`).

The Go code is shallowly embedded: pure helpers become Lean functions, and the
effectful pipeline (IQ queries, the signal session store, the cipher, the prekey
fetcher, the transport) is parameterized by an explicit environment `Env` whose
fields supply the results of each external call.  Every network round trip,
`ProcessBundle` invocation and successful pairwise encryption is recorded in an
event trace so that temporal properties (at most one bundle fetch, at most one
bundle establishment per device, ordering of network activity) can be stated
and proved about the traces the embedded code produces.
-/

/-- Full JIDs as used by the send path: user, device index, server, and the
AD (agent/device qualified) flag.  The agent field is always zero in this
module and is omitted.  Mirrors `waBinary.FullJID`. -/
structure FullJID where
  user : String
  device : Nat
  server : String
  ad : Bool
deriving DecidableEq, Repr

/-- Server of plain user JIDs (`waBinary.DefaultUserServer`). -/
def DefaultUserServer : String := "s.whatsapp.net"

/-- Server of group JIDs (`waBinary.GroupServer`). -/
def GroupServer : String := "g.us"

/-- Mirrors `waBinary.NewADJID(user, 0, device)`: an AD JID on the default
user server with agent 0. -/
def newADJID (user : String) (device : Nat) : FullJID :=
  ⟨user, device, DefaultUserServer, true⟩

/-- Rendering of a JID used only as an opaque identifier string (the phash
input); the claims do not depend on the exact format. -/
def FullJID.toStr (j : FullJID) : String :=
  j.user ++ "@" ++ j.server

/-- Attribute values occurring in this module: strings and JIDs
(the Go code stores them in a `map[string]interface\x7b\x7d`). -/
inductive AttrVal where
  | s : String → AttrVal
  | j : FullJID → AttrVal
deriving DecidableEq, Repr

/-- Binary nodes (`waBinary.Node`): a tag, an attribute list, and content that
is either a list of child nodes or raw bytes (bytes modeled as `List Nat`).
A node with no children and no raw bytes models nil content. -/
inductive Node where
  | mk (tag : String) (attrs : List (String × AttrVal)) (children : List Node)
      (raw : Option (List Nat))

/-- Tag projection. -/
def Node.tag : Node → String
  | .mk t _ _ _ => t

/-- Attribute-list projection. -/
def Node.attrs : Node → List (String × AttrVal)
  | .mk _ a _ _ => a

/-- Child-list projection (mirrors `Node.GetChildren`, which yields nil for
raw content). -/
def Node.children : Node → List Node
  | .mk _ _ c _ => c

/-- Raw-content projection. -/
def Node.raw : Node → Option (List Nat)
  | .mk _ _ _ r => r

/-!  SHA-256 over byte lists, written with `Nat` arithmetic modulo `2 ^ 32`.
Used by `participantListHashV2`. -/

/-- Modulus of 32-bit words. -/
def pow32 : Nat := 4294967296

/-- Addition modulo `2 ^ 32`. -/
def add32 (a b : Nat) : Nat := (a + b) % pow32

/-- Right rotation of a 32-bit word. -/
def rotr32 (n x : Nat) : Nat := (x >>> n) ||| ((x <<< (32 - n)) % pow32)

/-- SHA-256 small sigma 0. -/
def smallSigma0 (x : Nat) : Nat := rotr32 7 x ^^^ rotr32 18 x ^^^ (x >>> 3)

/-- SHA-256 small sigma 1. -/
def smallSigma1 (x : Nat) : Nat := rotr32 17 x ^^^ rotr32 19 x ^^^ (x >>> 10)

/-- SHA-256 big sigma 0. -/
def bigSigma0 (x : Nat) : Nat := rotr32 2 x ^^^ rotr32 13 x ^^^ rotr32 22 x

/-- SHA-256 big sigma 1. -/
def bigSigma1 (x : Nat) : Nat := rotr32 6 x ^^^ rotr32 11 x ^^^ rotr32 25 x

/-- SHA-256 choice function. -/
def chNat (x y z : Nat) : Nat := (x &&& y) ^^^ ((x ^^^ 4294967295) &&& z)

/-- SHA-256 majority function. -/
def majNat (x y z : Nat) : Nat := (x &&& y) ^^^ (x &&& z) ^^^ (y &&& z)

/-- SHA-256 round constants, written in decimal. -/
def sha256K : List Nat :=
  [1116352408, 1899447441, 3049323471, 3921009573, 961987163,
   1508970993, 2453635748, 2870763221, 3624381080, 310598401,
   607225278, 1426881987, 1925078388, 2162078206, 2614888103,
   3248222580, 3835390401, 4022224774, 264347078, 604807628,
   770255983, 1249150122, 1555081692, 1996064986, 2554220882,
   2821834349, 2952996808, 3210313671, 3336571891, 3584528711,
   113926993, 338241895, 666307205, 773529912, 1294757372,
   1396182291, 1695183700, 1986661051, 2177026350, 2456956037,
   2730485921, 2820302411, 3259730800, 3345764771, 3516065817,
   3600352804, 4094571909, 275423344, 430227734, 506948616,
   659060556, 883997877, 958139571, 1322822218, 1537002063,
   1747873779, 1955562222, 2024104815, 2227730452, 2361852424,
   2428436474, 2756734187, 3204031479, 3329325298]

/-- SHA-256 initial state, written in decimal. -/
def sha256H0 : List Nat :=
  [1779033703, 3144134277, 1013904242, 2773480762, 1359893119,
   2600822924, 528734635, 1541459225]

/-- Next message-schedule word from the words generated so far. -/
def nextW (w : List Nat) : Nat :=
  let i := w.length
  add32 (add32 (smallSigma1 (w.getD (i - 2) 0)) (w.getD (i - 7) 0))
    (add32 (smallSigma0 (w.getD (i - 15) 0)) (w.getD (i - 16) 0))

/-- Extends the message schedule by the given number of words. -/
def buildW (w : List Nat) : Nat → List Nat
  | 0 => w
  | k + 1 => buildW (w ++ [nextW w]) k

/-- One SHA-256 compression round; the state is the list `[a,b,c,d,e,f,g,h]`
and `kw` is the round constant already added to the schedule word. -/
def compressRound (st : List Nat) (kw : Nat) : List Nat :=
  match st with
  | [a, b, c, d, e, f, g, h] =>
    let t1 := add32 h (add32 (bigSigma1 e) (add32 (chNat e f g) kw))
    let t2 := add32 (bigSigma0 a) (majNat a b c)
    [add32 t1 t2, a, b, c, add32 d t1, e, f, g]
  | _ => st

/-- Compression of one 16-word block into the running hash state. -/
def compressBlock (h : List Nat) (w16 : List Nat) : List Nat :=
  let w := buildW w16 48
  let kw := List.zipWith add32 sha256K w
  List.zipWith add32 h (kw.foldl compressRound h)

/-- Big-endian 8-byte encoding of a length in bits. -/
def toBE64 (n : Nat) : List Nat :=
  [n / 2 ^ 56 % 256, n / 2 ^ 48 % 256, n / 2 ^ 40 % 256, n / 2 ^ 32 % 256,
   n / 2 ^ 24 % 256, n / 2 ^ 16 % 256, n / 2 ^ 8 % 256, n % 256]

/-- SHA-256 padding: append `0x80`, zeros to 56 mod 64, then the bit length. -/
def padMsg (msg : List Nat) : List Nat :=
  let l := msg.length
  let z := (56 + 64 - (l + 1) % 64) % 64
  msg ++ [128] ++ List.replicate z 0 ++ toBE64 (8 * l)

/-- Groups a byte list into big-endian 32-bit words. -/
def toWords : List Nat → List Nat
  | a :: b :: c :: d :: rest => (((a * 256 + b) * 256 + c) * 256 + d) :: toWords rest
  | _ => []

/-- Splits a list into chunks of 64 bytes. -/
def chunks64 (l : List Nat) : List (List Nat) :=
  if hl : l = [] then []
  else l.take 64 :: chunks64 (l.drop 64)
termination_by l.length
decreasing_by
  simp only [List.length_drop]
  have := List.length_pos.mpr hl
  omega

/-- SHA-256 state after processing a whole message, as eight words. -/
def sha256Words (msg : List Nat) : List Nat :=
  (chunks64 (padMsg msg)).foldl (fun h c => compressBlock h (toWords c)) sha256H0

/-- Unpacks 32-bit words into big-endian bytes. -/
def wordsToBytes : List Nat → List Nat
  | [] => []
  | w :: rest => [w / 2 ^ 24 % 256, w / 2 ^ 16 % 256, w / 2 ^ 8 % 256, w % 256] ++ wordsToBytes rest

/-- SHA-256 digest of a byte list, as 32 bytes. -/
def sha256Bytes (msg : List Nat) : List Nat := wordsToBytes (sha256Words msg)

/-- UTF-8 encoding of one character as bytes. -/
def utf8Bytes (c : Char) : List Nat :=
  let n := c.toNat
  if n < 128 then [n]
  else if n < 2048 then [192 + n / 64, 128 + n % 64]
  else if n < 65536 then [224 + n / 4096, 128 + n / 64 % 64, 128 + n % 64]
  else [240 + n / 262144, 128 + n / 4096 % 64, 128 + n / 64 % 64, 128 + n % 64]

/-- UTF-8 bytes of a string. -/
def strBytes (s : String) : List Nat :=
  (s.toList.map utf8Bytes).flatten

/-- Character of the standard base64 alphabet. -/
def b64Char (n : Nat) : Char :=
  "ABCDEFGHIJKLMNOPQRSTUVWXYZabcdefghijklmnopqrstuvwxyz0123456789+/".toList.getD n 'A'

/-- Standard base64 without padding (`base64.RawStdEncoding`). -/
def base64RawStd : List Nat → String
  | [] => ""
  | [a] => String.mk [b64Char (a / 4), b64Char (a % 4 * 16)]
  | [a, b] => String.mk [b64Char (a / 4), b64Char (a % 4 * 16 + b / 16), b64Char (b % 16 * 4)]
  | a :: b :: c :: rest =>
    String.mk [b64Char (a / 4), b64Char (a % 4 * 16 + b / 16),
      b64Char (b % 16 * 4 + c / 64), b64Char (c % 64)] ++ base64RawStd rest

/-- Mirrors `participantListHashV2`: sort the JID strings ascending
(`sort.Strings`), join with no separator, SHA-256, keep the first 6 bytes,
base64 without padding, and prefix the version tag. -/
def participantListHashV2 (participantJIDs : List String) : String :=
  let sorted := participantJIDs.mergeSort (fun a b => decide (a ≤ b))
  "2:" ++ base64RawStd ((sha256Bytes (strBytes (String.join sorted))).take 6)

/-- Reference definition following the specification text for
`participant_hash`: lexicographically sort the identifiers (stated here with
insertion sort, an independently defined sorting function), concatenate with
no separator, take the first 6 bytes of a SHA-256 digest of the UTF-8 bytes,
base64-encode without padding, and prefix the literal version tag. -/
def participantHashSpec (ids : List String) : String :=
  "2:" ++ base64RawStd
    ((sha256Bytes (strBytes (String.join (List.insertionSort (· ≤ ·) ids)))).take 6)

/-!  Environment and event trace for the effectful pipeline. -/

/-- Observable events of one send: each network round trip (group-info IQ,
usync IQ, batched prekey fetch, final node dispatch), each `ProcessBundle`
invocation, and each successful pairwise encryption.  An `encrypt` event
records the device, whether a bundle was processed in that same call
(first-contact establishment), and whether the resulting ciphertext had
prekey type (enc type "pkmsg"). -/
inductive Event where
  | iqGroupInfo
  | iqUsync
  | fetchPreKeys (devs : List FullJID)
  | processBundle (dev : FullJID)
  | encrypt (dev : FullJID) (viaBundle : Bool) (pkmsg : Bool)
  | sendNode
deriving DecidableEq, Repr

/-- One `user` entry of the usync response, after IQ-level checks: its tag,
its `jid` attribute if present and of JID type, whether the
`devices`/`device-list` wrapper tags are present, and the parsed `id`
attribute of each `device` child (`none` for entries that fail to parse). -/
structure UsyncUserNode where
  tag : String
  jidAttr : Option FullJID
  hasDeviceList : Bool
  deviceIDs : List (Option Int)

/-- Results of all external calls made by one send, supplied as data:
the session store contents, the cipher behavior, the prekey fetcher, the
proto marshaler and the transport.  `encPreKeyType d justBundled` is the
cipher's report of whether `ciphertext.Type()` is the prekey type, allowed
to depend on the device and on whether the session was just established
from a bundle in the same call. -/
structure Env where
  sessionID : FullJID
  containsSession : FullJID → Bool
  processBundleOk : FullJID → Bool
  encryptOk : FullJID → Bool
  encPreKeyType : FullJID → Bool → Bool
  serializeCT : FullJID → List Nat → List Nat
  fetchPreKeysOk : Bool
  bundleFor : FullJID → Except Unit Unit
  groupInfo : Except Unit (List FullJID)
  usyncResp : Except Unit (List UsyncUserNode)
  skdCreateOk : Bool
  marshalSKD : Except Unit (List Nat)
  groupEncryptOk : Bool
  groupCiphertext : List Nat
  marshalMsg : Except Unit (List Nat)
  marshalDSM : Except Unit (List Nat)
  marshalAccount : Except Unit (List Nat)
  sendNodeOk : Bool


/-- Errors of `encryptMessageForDevice`: the sentinel `ErrNoSession`, a
`ProcessBundle` failure, and a cipher encryption failure. -/
inductive EncErr where
  | noSession
  | bundleFail
  | cipherFail
deriving DecidableEq, Repr

/-- Successful result of `encryptMessageForDevice`: the participant node and
the `isPreKey` flag. -/
structure EncResult where
  node : Node
  isPreKey : Bool

/-- Result triple of one `encryptMessageForDevice` call: outcome, updated
session store, events. -/
structure EncDevRes where
  result : Except EncErr EncResult
  sessions : FullJID → Bool
  events : List Event

/-- Enc type string: "pkmsg" for prekey-type ciphertext, "msg" otherwise. -/
def encTypeStr (pk : Bool) : String := if pk then "pkmsg" else "msg"

/-- Participant node built on successful encryption: a `to` node wrapping one
versioned `enc` node with the serialized ciphertext. -/
def encNode (env : Env) (dest : FullJID) (pt : List Nat) (pk : Bool) : Node :=
  .mk "to" [("jid", .j dest)]
    [.mk "enc" [("v", .s "2"), ("type", .s (encTypeStr pk))] [] (some (env.serializeCT dest pt))]
    none

/-- Session-store update after a successful `ProcessBundle`. -/
def addSession (s : FullJID → Bool) (dest : FullJID) : FullJID → Bool :=
  fun j => if j = dest then true else s j

/-- Cipher-encryption step shared by both branches of
`encryptMessageForDevice`. -/
def encryptStep (env : Env) (s : FullJID → Bool) (pt : List Nat) (dest : FullJID)
    (justBundled : Bool) (evs : List Event) : EncDevRes :=
  if env.encryptOk dest then
    let pk := env.encPreKeyType dest justBundled
    ⟨.ok ⟨encNode env dest pt pk, pk⟩, s, evs ++ [.encrypt dest justBundled pk]⟩
  else ⟨.error .cipherFail, s, evs⟩

/-- Mirrors `encryptMessageForDevice`: if no session exists, process the
supplied bundle (failing with `ErrNoSession` when none is supplied), then
encrypt; `isPreKey` is `ciphertext.Type() == PREKEY_TYPE`. -/
def encryptMessageForDevice (env : Env) (s : FullJID → Bool) (pt : List Nat)
    (dest : FullJID) (bundle : Option Unit) : EncDevRes :=
  if s dest then encryptStep env s pt dest false []
  else
    match bundle with
    | none => ⟨.error .noSession, s, []⟩
    | some _ =>
      if env.processBundleOk dest then
        encryptStep env (addSession s dest) pt dest true [.processBundle dest]
      else ⟨.error .bundleFail, s, [.processBundle dest]⟩

/-- Plaintext selection of the fanout loop: the device-sent variant for the
sender's own user when one exists. -/
def selectPT (env : Env) (msgPT : List Nat) (dsmPT : Option (List Nat))
    (jid : FullJID) : List Nat :=
  if jid.user = env.sessionID.user then
    match dsmPT with
    | some d => d
    | none => msgPT
  else msgPT

/-- Accumulated result of the first fanout pass. -/
structure FirstRes where
  nodes : List Node
  retry : List FullJID
  incl : Bool
  sessions : FullJID → Bool
  events : List Event

/-- First pass of `encryptMessageForDevices`: encrypt each device with no
bundle; `ErrNoSession` defers the device to the retry set, other errors drop
it, successes accumulate nodes and the `includeIdentity` flag. -/
def fanoutFirst (env : Env) (msgPT : List Nat) (dsmPT : Option (List Nat)) :
    List FullJID → (FullJID → Bool) → FirstRes
  | [], s => ⟨[], [], false, s, []⟩
  | jid :: rest, s =>
    match encryptMessageForDevice env s (selectPT env msgPT dsmPT jid) jid none with
    | ⟨.error .noSession, s2, evs⟩ =>
      let tail := fanoutFirst env msgPT dsmPT rest s2
      ⟨tail.nodes, jid :: tail.retry, tail.incl, tail.sessions, evs ++ tail.events⟩
    | ⟨.error .bundleFail, s2, evs⟩ =>
      let tail := fanoutFirst env msgPT dsmPT rest s2
      ⟨tail.nodes, tail.retry, tail.incl, tail.sessions, evs ++ tail.events⟩
    | ⟨.error .cipherFail, s2, evs⟩ =>
      let tail := fanoutFirst env msgPT dsmPT rest s2
      ⟨tail.nodes, tail.retry, tail.incl, tail.sessions, evs ++ tail.events⟩
    | ⟨.ok r, s2, evs⟩ =>
      let tail := fanoutFirst env msgPT dsmPT rest s2
      ⟨r.node :: tail.nodes, tail.retry, r.isPreKey || tail.incl, tail.sessions,
        evs ++ tail.events⟩

/-- Accumulated result of the retry pass. -/
structure RetryRes where
  nodes : List Node
  incl : Bool
  sessions : FullJID → Bool
  events : List Event

/-- Retry pass of `encryptMessageForDevices`: for each deferred device whose
fetched bundle is not an error, encrypt once more with the bundle supplied;
any failure drops the device. -/
def fanoutRetry (env : Env) (msgPT : List Nat) (dsmPT : Option (List Nat)) :
    List FullJID → (FullJID → Bool) → RetryRes
  | [], s => ⟨[], false, s, []⟩
  | jid :: rest, s =>
    match env.bundleFor jid with
    | .error _ => fanoutRetry env msgPT dsmPT rest s
    | .ok _ =>
      match encryptMessageForDevice env s (selectPT env msgPT dsmPT jid) jid (some ()) with
      | ⟨.error _, s2, evs⟩ =>
        let tail := fanoutRetry env msgPT dsmPT rest s2
        ⟨tail.nodes, tail.incl, tail.sessions, evs ++ tail.events⟩
      | ⟨.ok r, s2, evs⟩ =>
        let tail := fanoutRetry env msgPT dsmPT rest s2
        ⟨r.node :: tail.nodes, r.isPreKey || tail.incl, tail.sessions, evs ++ tail.events⟩

/-- Overall fanout result: participant nodes, `includeIdentity`, events. -/
structure FanoutRes where
  nodes : List Node
  incl : Bool
  events : List Event

/-- Mirrors `encryptMessageForDevices`: the first pass over all devices, then,
if any device was deferred, one batched prekey fetch; when the fetch itself
fails the deferred devices are dropped, otherwise the retry pass runs over
exactly the deferred devices. -/
def encryptMessageForDevices (env : Env) (allDevices : List FullJID)
    (msgPT : List Nat) (dsmPT : Option (List Nat)) : FanoutRes :=
  match fanoutFirst env msgPT dsmPT allDevices env.containsSession with
  | ⟨nodes, [], incl, _, evs⟩ => ⟨nodes, incl, evs⟩
  | ⟨nodes, j :: rl, incl, s, evs⟩ =>
    if env.fetchPreKeysOk then
      ⟨nodes ++ (fanoutRetry env msgPT dsmPT (j :: rl) s).nodes,
        incl || (fanoutRetry env msgPT dsmPT (j :: rl) s).incl,
        (evs ++ [.fetchPreKeys (j :: rl)]) ++ (fanoutRetry env msgPT dsmPT (j :: rl) s).events⟩
    else ⟨nodes, incl, evs ++ [.fetchPreKeys (j :: rl)]⟩

/-!  Send paths: marshaling, device resolution, node assembly, dispatch. -/

/-- Send-level errors, one per abort site of `sendGroup`/`sendDM`. -/
inductive SendErr where
  | marshalFail
  | groupInfoFail
  | skdCreateFail
  | skdMarshalFail
  | groupEncryptFail
  | usyncFail
  | identityFail
  | sendNodeFail
deriving DecidableEq, Repr

/-- Result of a send: the outcome (on success, the node handed to
`sendNode`) together with the event trace. -/
structure SendRes where
  result : Except SendErr Node
  events : List Event

/-- Mirrors `marshalMessage`: marshal the message, and for non-group
destinations additionally marshal the `DeviceSentMessage` self-copy wrapper;
either marshal failure is returned as an error. -/
def marshalMessage (env : Env) (dest : FullJID) :
    Except SendErr (List Nat × Option (List Nat)) :=
  match env.marshalMsg with
  | .error _ => .error .marshalFail
  | .ok pt =>
    if dest.server ≠ GroupServer then
      match env.marshalDSM with
      | .error _ => .error .marshalFail
      | .ok d => .ok (pt, some d)
    else .ok (pt, none)

/-- Device filter of `GetUSyncDevices` applied to the parsed `device` entries
of one `user` node: each parsed id is truncated to a byte, turned into an AD
JID, and kept when it is not an ignored primary and differs from the client
session JID. -/
def parseDevices (sid : FullJID) (ignorePrimary : Bool) (user : String) :
    List (Option Int) → List FullJID
  | [] => []
  | none :: rest => parseDevices sid ignorePrimary user rest
  | some did :: rest =>
    let dj := newADJID user ((did % 256).toNat)
    if (0 < dj.device ∨ ¬ ignorePrimary) ∧ dj ≠ sid then
      dj :: parseDevices sid ignorePrimary user rest
    else parseDevices sid ignorePrimary user rest

/-- Response-processing loop of `GetUSyncDevices`: skip `user` entries with a
wrong tag, a missing `jid` attribute, or missing `devices`/`device-list`
wrappers, and collect the filtered devices of the rest. -/
def parseUSyncDevices (sid : FullJID) (ignorePrimary : Bool) :
    List UsyncUserNode → List FullJID
  | [] => []
  | u :: rest =>
    let tail := parseUSyncDevices sid ignorePrimary rest
    match u.jidAttr with
    | none => tail
    | some j =>
      if u.tag = "user" ∧ u.hasDeviceList then
        parseDevices sid ignorePrimary j.user u.deviceIDs ++ tail
      else tail

/-- Mirrors `appendDeviceIdentityNode`: append a `device-identity` child
carrying the marshaled account to the node's children (`GetChildren` yields
nil for raw content, which is therefore discarded). -/
def appendDeviceIdentityNode (node : Node) (acct : List Nat) : Node :=
  .mk node.tag node.attrs (node.children ++ [.mk "device-identity" [] [] (some acct)]) none

/-- Shared tail of both send paths: append the device-identity node when the
fanout requested it (aborting if the account marshal fails), then hand the
node to `sendNode`. -/
def finishSend (env : Env) (node : Node) (includeIdentity : Bool)
    (evs : List Event) : SendRes :=
  if includeIdentity then
    match env.marshalAccount with
    | .error _ => ⟨.error .identityFail, evs⟩
    | .ok acct =>
      if env.sendNodeOk then
        ⟨.ok (appendDeviceIdentityNode node acct), evs ++ [.sendNode]⟩
      else ⟨.error .sendNodeFail, evs ++ [.sendNode]⟩
  else
    if env.sendNodeOk then ⟨.ok node, evs ++ [.sendNode]⟩
    else ⟨.error .sendNodeFail, evs ++ [.sendNode]⟩

/-- Mirrors `sendDM`: marshal (message plus self-copy), resolve devices with
one usync query, run the fanout, assemble the message node with the
participants child, then finish. -/
def sendDM (env : Env) (dest : FullJID) (msgID : String) : SendRes :=
  match marshalMessage env dest with
  | .error e => ⟨.error e, []⟩
  | .ok pr =>
    match env.usyncResp with
    | .error _ => ⟨.error .usyncFail, [.iqUsync]⟩
    | .ok users =>
      let devices := parseUSyncDevices env.sessionID false users
      let fr := encryptMessageForDevices env devices pr.1 pr.2
      let node : Node := .mk "message"
        [("id", .s msgID), ("type", .s "text"), ("to", .j dest)]
        [.mk "participants" [] fr.nodes none] none
      finishSend env node fr.incl ([.iqUsync] ++ fr.events)

/-- Mirrors `sendGroup`: fetch group info, marshal, create and marshal the
sender-key distribution message, group-encrypt the message, resolve the
participants' devices, fan the distribution plaintext out pairwise, and
assemble the node with the phash attribute and the skmsg enc child. -/
def sendGroup (env : Env) (dest : FullJID) (msgID : String) : SendRes :=
  match env.groupInfo with
  | .error _ => ⟨.error .groupInfoFail, [.iqGroupInfo]⟩
  | .ok participants =>
    match marshalMessage env dest with
    | .error e => ⟨.error e, [.iqGroupInfo]⟩
    | .ok _pr =>
      if ¬ env.skdCreateOk then ⟨.error .skdCreateFail, [.iqGroupInfo]⟩
      else
        match env.marshalSKD with
        | .error _ => ⟨.error .skdMarshalFail, [.iqGroupInfo]⟩
        | .ok skdPlaintext =>
          if ¬ env.groupEncryptOk then ⟨.error .groupEncryptFail, [.iqGroupInfo]⟩
          else
            let participantsStrings := participants.map FullJID.toStr
            match env.usyncResp with
            | .error _ => ⟨.error .usyncFail, [.iqGroupInfo, .iqUsync]⟩
            | .ok users =>
              let devices := parseUSyncDevices env.sessionID false users
              let fr := encryptMessageForDevices env devices skdPlaintext none
              let node : Node := .mk "message"
                [("id", .s msgID), ("type", .s "text"), ("to", .j dest),
                 ("phash", .s (participantListHashV2 participantsStrings))]
                [.mk "participants" [] fr.nodes none,
                 .mk "enc" [("v", .s "2"), ("type", .s "skmsg")] [] (some env.groupCiphertext)]
                none
              finishSend env node fr.incl ([.iqGroupInfo, .iqUsync] ++ fr.events)

/-- Fanout result along the `sendDM` path (junk default when an earlier
stage fails, in which case `sendDM` returns an error before the fanout). -/
def dmFanout (env : Env) (dest : FullJID) : FanoutRes :=
  match marshalMessage env dest with
  | .error _ => ⟨[], false, []⟩
  | .ok pr =>
    match env.usyncResp with
    | .error _ => ⟨[], false, []⟩
    | .ok users => encryptMessageForDevices env (parseUSyncDevices env.sessionID false users) pr.1 pr.2

/-- Fanout result along the `sendGroup` path (junk default when an earlier
stage fails). -/
def groupFanout (env : Env) (dest : FullJID) : FanoutRes :=
  match env.groupInfo with
  | .error _ => ⟨[], false, []⟩
  | .ok _ =>
    match marshalMessage env dest with
    | .error _ => ⟨[], false, []⟩
    | .ok _pr =>
      if ¬ env.skdCreateOk then ⟨[], false, []⟩
      else
        match env.marshalSKD with
        | .error _ => ⟨[], false, []⟩
        | .ok skdPlaintext =>
          if ¬ env.groupEncryptOk then ⟨[], false, []⟩
          else
            match env.usyncResp with
            | .error _ => ⟨[], false, []⟩
            | .ok users =>
              encryptMessageForDevices env (parseUSyncDevices env.sessionID false users)
                skdPlaintext none

/-!  Trace and node observations used by the claims. -/

/-- Number of batched prekey-fetch round trips in a trace. -/
def countFetch (evs : List Event) : Nat :=
  evs.countP fun e => match e with | .fetchPreKeys _ => true | _ => false

/-- Number of `ProcessBundle` invocations for one device in a trace. -/
def countBundleFor (d : FullJID) (evs : List Event) : Nat :=
  evs.countP fun e => match e with | .processBundle j => j = d | _ => false

/-- Whether an event is a network round trip. -/
def isNetworkEvent : Event → Bool
  | .iqGroupInfo => true
  | .iqUsync => true
  | .fetchPreKeys _ => true
  | .sendNode => true
  | _ => false

/-- Number of direct children with a given tag. -/
def countTag (l : List Node) (t : String) : Nat :=
  (l.filter fun n => n.tag = t).length

/-- Whether a node is a sender-key distribution entry: an `enc` node whose
type attribute is "skmsg". -/
def isSkmsgEnc (n : Node) : Bool :=
  n.tag = "enc" && n.attrs.lookup "type" = some (.s "skmsg")

/-- Number of sender-key distribution entries among a list of nodes. -/
def countSkmsgTop (l : List Node) : Nat := (l.filter isSkmsgEnc).length

/-- Whether the first three levels below a node are free of sender-key
distribution entries (the assembled message tree has depth three). -/
def skmsgFree3 (n : Node) : Bool :=
  countSkmsgTop n.children = 0 &&
    n.children.all fun c => countSkmsgTop c.children = 0 &&
      c.children.all fun g => countSkmsgTop g.children = 0

/-!  Concrete inputs used to instantiate the theorems below. -/

/-- Sender JID used in concrete instantiations. -/
def jidA : FullJID := newADJID "alice" 0

/-- Secondary device of the sender's user. -/
def jidA1 : FullJID := newADJID "alice" 1

/-- Primary device of a second user. -/
def jidB : FullJID := newADJID "bob" 0

/-- Directory entry for alice with devices 0 and 1. -/
def uAlice : UsyncUserNode := ⟨"user", some ⟨"alice", 0, DefaultUserServer, false⟩, true, [some 0, some 1]⟩

/-- Directory entry for bob with device 0. -/
def uBob : UsyncUserNode := ⟨"user", some ⟨"bob", 0, DefaultUserServer, false⟩, true, [some 0]⟩

/-- Baseline environment: alice device 0 is the sender, a session exists
only with alice device 1, all external calls succeed, and the cipher
reports prekey-type ciphertext exactly after in-call establishment. -/
def envW : Env :=
  ⟨jidA, fun j => decide (j = jidA1), fun _ => true, fun _ => true, fun _ jb => jb,
    fun _ pt => pt, true, fun _ => .ok (), .ok [jidA, jidB], .ok [uAlice, uBob],
    true, .ok [7], true, [9], .ok [1], .ok [2], .ok [3], true⟩

/-- Baseline environment with the batched prekey fetch failing as a whole. -/
def envWF : Env := { envW with fetchPreKeysOk := false }

/-- Environment in which every device has a session and every pairwise
encryption fails. -/
def envAllFail : Env :=
  { envW with containsSession := fun _ => true, encryptOk := fun _ => false }

/-- Environment in which every device has a session and the cipher reports
prekey-type ciphertext for every call (an unacknowledged first-contact
session from an earlier send behaves this way). -/
def envC6 : Env :=
  { envW with containsSession := fun _ => true, encPreKeyType := fun _ _ => true }

/-- Environment in which message marshaling fails. -/
def envMarshalFail : Env := { envW with marshalMsg := .error () }

/-- Group JID used in concrete instantiations. -/
def jidG : FullJID := ⟨"group1", 0, GroupServer, false⟩

/-- Environment in which the group-info query fails. -/
def envGroupFail : Env := { envW with groupInfo := .error () }

/-- Environment in which the usync device query fails. -/
def envUsyncFail : Env := { envW with usyncResp := .error () }

/-!  Lemmas about one `encryptMessageForDevice` call. -/

/-- A call without a bundle never changes the session store. -/
theorem encDev_none_sessions (env : Env) (s : FullJID → Bool) (pt : List Nat) (d : FullJID) :
    (encryptMessageForDevice env s pt d none).sessions = s := by
  unfold encryptMessageForDevice encryptStep
  by_cases h : s d <;> by_cases h2 : env.encryptOk d <;> simp [h, h2]

/-- The `ErrNoSession` outcome occurs exactly when no session exists and no
bundle was supplied. -/
theorem encDev_noSession_iff (env : Env) (s : FullJID → Bool) (pt : List Nat) (d : FullJID)
    (b : Option Unit) :
    (encryptMessageForDevice env s pt d b).result = .error .noSession ↔
      s d = false ∧ b = none := by
  unfold encryptMessageForDevice encryptStep
  rcases b with _ | _ <;> by_cases h : s d <;>
    by_cases h2 : env.encryptOk d <;> by_cases h3 : env.processBundleOk d <;>
    simp [h, h2, h3]

/-- No single encryption call issues a prekey-fetch round trip. -/
theorem encDev_countFetch (env : Env) (s : FullJID → Bool) (pt : List Nat) (d : FullJID)
    (b : Option Unit) :
    countFetch (encryptMessageForDevice env s pt d b).events = 0 := by
  unfold encryptMessageForDevice encryptStep
  rcases b with _ | _ <;> by_cases h : s d <;>
    by_cases h2 : env.encryptOk d <;> by_cases h3 : env.processBundleOk d <;>
    simp [h, h2, h3, countFetch]

/-- A call without a bundle never invokes `ProcessBundle`. -/
theorem encDev_countBundle_none (env : Env) (s : FullJID → Bool) (pt : List Nat) (d : FullJID)
    (x : FullJID) :
    countBundleFor x (encryptMessageForDevice env s pt d none).events = 0 := by
  unfold encryptMessageForDevice encryptStep
  by_cases h : s d <;> by_cases h2 : env.encryptOk d <;> simp [h, h2, countBundleFor]

/-- One encryption call invokes `ProcessBundle` at most once, and only for
its own device. -/
theorem encDev_countBundle (env : Env) (s : FullJID → Bool) (pt : List Nat) (d : FullJID)
    (b : Option Unit) (x : FullJID) :
    countBundleFor x (encryptMessageForDevice env s pt d b).events ≤
      if d = x then 1 else 0 := by
  unfold encryptMessageForDevice encryptStep
  rcases b with _ | _ <;> by_cases h : s d <;>
    by_cases h2 : env.encryptOk d <;> by_cases h3 : env.processBundleOk d <;>
    simp [h, h2, h3, countBundleFor, List.countP_cons]

/-- Every `encrypt` event of a call reports exactly the cipher's
prekey-type answer for that device and establishment mode. -/
theorem encDev_encrypt_mem (env : Env) (s : FullJID → Bool) (pt : List Nat) (d : FullJID)
    (b : Option Unit) (j : FullJID) (vb pk : Bool) :
    Event.encrypt j vb pk ∈ (encryptMessageForDevice env s pt d b).events →
      pk = env.encPreKeyType j vb := by
  unfold encryptMessageForDevice encryptStep
  rcases b with _ | _ <;> by_cases h : s d <;>
    by_cases h2 : env.encryptOk d <;> by_cases h3 : env.processBundleOk d <;>
    simp [h, h2, h3]
  all_goals rintro rfl rfl rfl; rfl

/-- Characterization of a successful call: the `isPreKey` flag is the
cipher's prekey-type answer, where the establishment mode records whether
the session was missing and a bundle was supplied, and the node is the
participant node built from that flag. -/
theorem encDev_ok (env : Env) (s : FullJID → Bool) (pt : List Nat) (d : FullJID)
    (b : Option Unit) (r : EncResult) :
    (encryptMessageForDevice env s pt d b).result = .ok r →
      r.isPreKey = env.encPreKeyType d (!(s d) && b.isSome) ∧
      r.node = encNode env d pt r.isPreKey := by
  unfold encryptMessageForDevice encryptStep
  rcases b with _ | _ <;> by_cases h : s d <;>
    by_cases h2 : env.encryptOk d <;> by_cases h3 : env.processBundleOk d <;>
    simp [h, h2, h3]
  all_goals rintro rfl; simp

/-!  Lemmas about the first fanout pass. -/

/-- The first pass never changes the session store. -/
theorem fanoutFirst_sessions (env : Env) (msgPT : List Nat) (dsmPT : Option (List Nat)) :
    ∀ (l : List FullJID) (s : FullJID → Bool),
      (fanoutFirst env msgPT dsmPT l s).sessions = s := by
  intro l
  induction l with
  | nil => intro s; rfl
  | cons j rest ih =>
    intro s
    have hs := encDev_none_sessions env s (selectPT env msgPT dsmPT j) j
    rcases h : encryptMessageForDevice env s (selectPT env msgPT dsmPT j) j none with ⟨res, s2, evs⟩
    have hs2 : s2 = s := by rw [h] at hs; exact hs
    rcases res with e | r
    · rcases e <;> simp [fanoutFirst, h, ih, hs2]
    · simp [fanoutFirst, h, ih, hs2]

/-- The retry set is a sublist of the device list. -/
theorem fanoutFirst_retry_sublist (env : Env) (msgPT : List Nat) (dsmPT : Option (List Nat)) :
    ∀ (l : List FullJID) (s : FullJID → Bool),
      (fanoutFirst env msgPT dsmPT l s).retry.Sublist l := by
  intro l
  induction l with
  | nil => intro s; simp [fanoutFirst]
  | cons j rest ih =>
    intro s
    rcases h : encryptMessageForDevice env s (selectPT env msgPT dsmPT j) j none with ⟨res, s2, evs⟩
    rcases res with e | r
    · rcases e
      · simpa [fanoutFirst, h] using List.Sublist.cons₂ j (ih s2)
      · simpa [fanoutFirst, h] using List.Sublist.cons j (ih s2)
      · simpa [fanoutFirst, h] using List.Sublist.cons j (ih s2)
    · simpa [fanoutFirst, h] using List.Sublist.cons j (ih s2)

/-- A device with an established session is never deferred to the retry
set. -/
theorem fanoutFirst_retry_mem (env : Env) (msgPT : List Nat) (dsmPT : Option (List Nat)) :
    ∀ (l : List FullJID) (s : FullJID → Bool) (j : FullJID),
      j ∈ (fanoutFirst env msgPT dsmPT l s).retry → s j = false := by
  intro l
  induction l with
  | nil => intro s j hj; simp [fanoutFirst] at hj
  | cons a rest ih =>
    intro s j hj
    have hs := encDev_none_sessions env s (selectPT env msgPT dsmPT a) a
    have hns := encDev_noSession_iff env s (selectPT env msgPT dsmPT a) a none
    rcases h : encryptMessageForDevice env s (selectPT env msgPT dsmPT a) a none with ⟨res, s2, evs⟩
    have hs2 : s2 = s := by rw [h] at hs; exact hs
    rw [h] at hns
    rcases res with e | r
    · rcases e
      · simp [fanoutFirst, h] at hj
        rcases hj with rfl | hj
        · exact (hns.mp rfl).1
        · exact hs2 ▸ ih s2 j hj
      · simp [fanoutFirst, h] at hj
        exact hs2 ▸ ih s2 j hj
      · simp [fanoutFirst, h] at hj
        exact hs2 ▸ ih s2 j hj
    · simp [fanoutFirst, h] at hj
      exact hs2 ▸ ih s2 j hj

/-- Fetch counts distribute over trace concatenation. -/
theorem countFetch_append (a b : List Event) :
    countFetch (a ++ b) = countFetch a + countFetch b := by
  simp [countFetch, List.countP_append]

/-- Bundle counts distribute over trace concatenation. -/
theorem countBundleFor_append (x : FullJID) (a b : List Event) :
    countBundleFor x (a ++ b) = countBundleFor x a + countBundleFor x b := by
  simp [countBundleFor, List.countP_append]

/-- The first pass issues no prekey fetch and no `ProcessBundle`. -/
theorem fanoutFirst_counts (env : Env) (msgPT : List Nat) (dsmPT : Option (List Nat)) :
    ∀ (l : List FullJID) (s : FullJID → Bool),
      countFetch (fanoutFirst env msgPT dsmPT l s).events = 0 ∧
      ∀ x, countBundleFor x (fanoutFirst env msgPT dsmPT l s).events = 0 := by
  intro l
  induction l with
  | nil => intro s; simp [fanoutFirst, countFetch, countBundleFor]
  | cons j rest ih =>
    intro s
    have hf := encDev_countFetch env s (selectPT env msgPT dsmPT j) j none
    have hb := encDev_countBundle_none env s (selectPT env msgPT dsmPT j) j
    rcases h : encryptMessageForDevice env s (selectPT env msgPT dsmPT j) j none with ⟨res, s2, evs⟩
    rw [h] at hf hb
    rcases res with e | r
    · rcases e <;>
        simp [fanoutFirst, h, countFetch_append, countBundleFor_append, hf, hb,
          (ih s2).1, (ih s2).2]
    · simp [fanoutFirst, h, countFetch_append, countBundleFor_append, hf, hb,
        (ih s2).1, (ih s2).2]

/-!  Lemmas about the retry pass. -/

/-- The retry pass issues no prekey fetch, and invokes `ProcessBundle` at
most as often per device as that device occurs in the retried list. -/
theorem fanoutRetry_counts (env : Env) (msgPT : List Nat) (dsmPT : Option (List Nat)) :
    ∀ (l : List FullJID) (s : FullJID → Bool),
      countFetch (fanoutRetry env msgPT dsmPT l s).events = 0 ∧
      ∀ x, countBundleFor x (fanoutRetry env msgPT dsmPT l s).events ≤ l.count x := by
  intro l
  induction l with
  | nil => intro s; simp [fanoutRetry, countFetch, countBundleFor]
  | cons j rest ih =>
    intro s
    rcases hb : env.bundleFor j with e | u
    · have h2 : fanoutRetry env msgPT dsmPT (j :: rest) s = fanoutRetry env msgPT dsmPT rest s := by
        simp [fanoutRetry, hb]
      rw [h2]
      refine ⟨(ih s).1, fun x => le_trans ((ih s).2 x) ?_⟩
      rw [List.count_cons]
      omega
    · rcases h : encryptMessageForDevice env s (selectPT env msgPT dsmPT j) j (some ()) with ⟨res, s2, evs⟩
      have hf := encDev_countFetch env s (selectPT env msgPT dsmPT j) j (some ())
      have hbb := encDev_countBundle env s (selectPT env msgPT dsmPT j) j (some ())
      rw [h] at hf hbb
      rcases res with e | r
      all_goals
        simp only [fanoutRetry, hb, h]
        refine ⟨?_, fun x => ?_⟩
      case error.refine_1 | ok.refine_1 =>
        rw [countFetch_append, hf, (ih s2).1]
      all_goals
        rw [countBundleFor_append, List.count_cons]
        have h1 : countBundleFor x evs ≤ if j = x then 1 else 0 := hbb x
        have h2 := (ih s2).2 x
        split at h1 <;> split <;> first | omega | simp_all

/-- Every `encrypt` event of the retry pass reports the cipher's prekey-type
answer. -/
theorem fanoutRetry_encrypt_mem (env : Env) (msgPT : List Nat) (dsmPT : Option (List Nat)) :
    ∀ (l : List FullJID) (s : FullJID → Bool) (j : FullJID) (vb pk : Bool),
      Event.encrypt j vb pk ∈ (fanoutRetry env msgPT dsmPT l s).events →
        pk = env.encPreKeyType j vb := by
  intro l
  induction l with
  | nil => intro s j vb pk hm; simp [fanoutRetry] at hm
  | cons a rest ih =>
    intro s j vb pk hm
    rcases hb : env.bundleFor a with e | u
    · rw [show fanoutRetry env msgPT dsmPT (a :: rest) s = fanoutRetry env msgPT dsmPT rest s by
        simp [fanoutRetry, hb]] at hm
      exact ih s j vb pk hm
    · rcases h : encryptMessageForDevice env s (selectPT env msgPT dsmPT a) a (some ()) with ⟨res, s2, evs⟩
      have hme := encDev_encrypt_mem env s (selectPT env msgPT dsmPT a) a (some ()) j vb pk
      rw [h] at hme
      rcases res with e | r
      all_goals
        simp only [fanoutRetry, hb, h] at hm
        rcases List.mem_append.mp hm with hm1 | hm2
      · exact hme hm1
      · exact ih s2 j vb pk hm2
      · exact hme hm1
      · exact ih s2 j vb pk hm2

/-- Every `encrypt` event of the first pass reports the cipher's prekey-type
answer. -/
theorem fanoutFirst_encrypt_mem (env : Env) (msgPT : List Nat) (dsmPT : Option (List Nat)) :
    ∀ (l : List FullJID) (s : FullJID → Bool) (j : FullJID) (vb pk : Bool),
      Event.encrypt j vb pk ∈ (fanoutFirst env msgPT dsmPT l s).events →
        pk = env.encPreKeyType j vb := by
  intro l
  induction l with
  | nil => intro s j vb pk hm; simp [fanoutFirst] at hm
  | cons a rest ih =>
    intro s j vb pk hm
    rcases h : encryptMessageForDevice env s (selectPT env msgPT dsmPT a) a none with ⟨res, s2, evs⟩
    have hme := encDev_encrypt_mem env s (selectPT env msgPT dsmPT a) a none j vb pk
    rw [h] at hme
    rcases res with e | r
    · rcases e
      all_goals
        simp only [fanoutFirst, h] at hm
        rcases List.mem_append.mp hm with hm1 | hm2
      · exact hme hm1
      · exact ih s2 j vb pk hm2
      · exact hme hm1
      · exact ih s2 j vb pk hm2
      · exact hme hm1
      · exact ih s2 j vb pk hm2
    · simp only [fanoutFirst, h] at hm
      rcases List.mem_append.mp hm with hm1 | hm2
      · exact hme hm1
      · exact ih s2 j vb pk hm2

/-!  Shape of the participant nodes produced by the fanout. -/

/-- A participant node is a `to` node, contains no sender-key distribution
entry, and its children (the single `enc` node) are leaves. -/
theorem encNode_shape (env : Env) (d : FullJID) (pt : List Nat) (pk : Bool) :
    (encNode env d pt pk).tag = "to" ∧ countSkmsgTop (encNode env d pt pk).children = 0 ∧
      ∀ g ∈ (encNode env d pt pk).children, g.children = [] := by
  refine ⟨rfl, ?_, ?_⟩
  · cases pk <;> rfl
  · intro g hg
    simp only [encNode, Node.children, List.mem_singleton] at hg
    subst hg
    rfl

/-- Every node of the first pass is a well-shaped participant node. -/
theorem fanoutFirst_nodes_shape (env : Env) (msgPT : List Nat) (dsmPT : Option (List Nat)) :
    ∀ (l : List FullJID) (s : FullJID → Bool) (n : Node),
      n ∈ (fanoutFirst env msgPT dsmPT l s).nodes →
        n.tag = "to" ∧ countSkmsgTop n.children = 0 ∧ ∀ g ∈ n.children, g.children = [] := by
  intro l
  induction l with
  | nil => intro s n hn; simp [fanoutFirst] at hn
  | cons a rest ih =>
    intro s n hn
    rcases h : encryptMessageForDevice env s (selectPT env msgPT dsmPT a) a none with ⟨res, s2, evs⟩
    have hok := encDev_ok env s (selectPT env msgPT dsmPT a) a none
    rw [h] at hok
    rcases res with e | r
    · rcases e <;>
        (simp only [fanoutFirst, h] at hn; exact ih s2 n hn)
    · simp only [fanoutFirst, h, List.mem_cons] at hn
      rcases hn with rfl | hn
      · have := (hok r rfl).2
        rw [this]
        exact encNode_shape env a (selectPT env msgPT dsmPT a) r.isPreKey
      · exact ih s2 n hn

/-- Every node of the retry pass is a well-shaped participant node. -/
theorem fanoutRetry_nodes_shape (env : Env) (msgPT : List Nat) (dsmPT : Option (List Nat)) :
    ∀ (l : List FullJID) (s : FullJID → Bool) (n : Node),
      n ∈ (fanoutRetry env msgPT dsmPT l s).nodes →
        n.tag = "to" ∧ countSkmsgTop n.children = 0 ∧ ∀ g ∈ n.children, g.children = [] := by
  intro l
  induction l with
  | nil => intro s n hn; simp [fanoutRetry] at hn
  | cons a rest ih =>
    intro s n hn
    rcases hb : env.bundleFor a with e | u
    · rw [show fanoutRetry env msgPT dsmPT (a :: rest) s = fanoutRetry env msgPT dsmPT rest s by
        simp [fanoutRetry, hb]] at hn
      exact ih s n hn
    · rcases h : encryptMessageForDevice env s (selectPT env msgPT dsmPT a) a (some ()) with ⟨res, s2, evs⟩
      have hok := encDev_ok env s (selectPT env msgPT dsmPT a) a (some ())
      rw [h] at hok
      rcases res with e | r
      · simp only [fanoutRetry, hb, h] at hn
        exact ih s2 n hn
      · simp only [fanoutRetry, hb, h, List.mem_cons] at hn
        rcases hn with rfl | hn
        · have := (hok r rfl).2
          rw [this]
          exact encNode_shape env a (selectPT env msgPT dsmPT a) r.isPreKey
        · exact ih s2 n hn

/-- Every node of the whole fanout is a well-shaped participant node. -/
theorem fanout_nodes_shape (env : Env) (allDevices : List FullJID) (msgPT : List Nat)
    (dsmPT : Option (List Nat)) (n : Node)
    (hn : n ∈ (encryptMessageForDevices env allDevices msgPT dsmPT).nodes) :
    n.tag = "to" ∧ countSkmsgTop n.children = 0 ∧ ∀ g ∈ n.children, g.children = [] := by
  have hfn := fanoutFirst_nodes_shape env msgPT dsmPT allDevices env.containsSession n
  rcases hfr : fanoutFirst env msgPT dsmPT allDevices env.containsSession with
    ⟨nodes, retry, incl, s, evs⟩
  rw [hfr] at hfn
  rcases retry with _ | ⟨j, rl⟩
  · simp only [encryptMessageForDevices, hfr] at hn
    exact hfn hn
  · by_cases hfo : env.fetchPreKeysOk <;>
      simp only [encryptMessageForDevices, hfr, hfo, if_true, if_false] at hn
    · rcases List.mem_append.mp hn with hn | hn
      · exact hfn hn
      · exact fanoutRetry_nodes_shape env msgPT dsmPT _ _ n hn
    · exact hfn hn

/-- When every device has a session and every encryption fails, the first
pass produces nothing at all. -/
theorem fanoutFirst_allFail (env : Env) (msgPT : List Nat) (dsmPT : Option (List Nat))
    (henc : ∀ j, env.encryptOk j = false) :
    ∀ (l : List FullJID) (s : FullJID → Bool), (∀ j, s j = true) →
      fanoutFirst env msgPT dsmPT l s = ⟨[], [], false, s, []⟩ := by
  intro l
  induction l with
  | nil => intro s hs; rfl
  | cons a rest ih =>
    intro s hs
    have h : encryptMessageForDevice env s (selectPT env msgPT dsmPT a) a none =
        ⟨.error .cipherFail, s, []⟩ := by
      unfold encryptMessageForDevice encryptStep
      simp [hs a, henc a]
    simp [fanoutFirst, h, ih s hs]

/-- A trace with fetch count zero contains no fetch event. -/
theorem no_fetch_of_countFetch_zero (evs : List Event) (h : countFetch evs = 0)
    (ds : List FullJID) : Event.fetchPreKeys ds ∉ evs := by
  intro hm
  have h2 : ∀ e ∈ evs, ¬ (match e with | Event.fetchPreKeys _ => true | _ => false) = true :=
    List.countP_eq_zero.mp h
  have := h2 _ hm
  simp at this

/-- Claim C1: for every device set given to the fanout, at most one
prekey-bundle fetch round trip is issued regardless of the number of
devices, and `ProcessBundle` is invoked at most once per device per
fanout. -/
theorem claim1_one_fetch_one_bundle (env : Env) (allDevices : List FullJID)
    (msgPT : List Nat) (dsmPT : Option (List Nat)) (hnd : allDevices.Nodup) :
    countFetch (encryptMessageForDevices env allDevices msgPT dsmPT).events ≤ 1 ∧
    ∀ d, countBundleFor d (encryptMessageForDevices env allDevices msgPT dsmPT).events ≤ 1 := by
  have hcnt := fanoutFirst_counts env msgPT dsmPT allDevices env.containsSession
  have hsub := fanoutFirst_retry_sublist env msgPT dsmPT allDevices env.containsSession
  rcases hfr : fanoutFirst env msgPT dsmPT allDevices env.containsSession with
    ⟨nodes, retry, incl, s, evs⟩
  rw [hfr] at hcnt hsub
  have hf0 : countFetch evs = 0 := hcnt.1
  have hb0 : ∀ x, countBundleFor x evs = 0 := hcnt.2
  have hsub2 : retry.Sublist allDevices := hsub
  have hnr : retry.Nodup := List.Nodup.sublist hsub2 hnd
  rcases retry with _ | ⟨j, rl⟩
  · simp only [encryptMessageForDevices, hfr]
    exact ⟨by rw [hf0]; omega, fun d => by rw [hb0 d]; omega⟩
  · have hrc := fanoutRetry_counts env msgPT dsmPT (j :: rl) s
    simp only [encryptMessageForDevices, hfr]
    by_cases hfo : env.fetchPreKeysOk
    · rw [if_pos hfo]
      constructor
      · rw [countFetch_append, countFetch_append, hf0, hrc.1]
        simp [countFetch]
      · intro d
        rw [countBundleFor_append, countBundleFor_append, hb0 d]
        have h1 := hrc.2 d
        have h2 : (j :: rl).count d ≤ 1 := List.nodup_iff_count_le_one.mp hnr d
        have h3 : countBundleFor d [Event.fetchPreKeys (j :: rl)] = 0 := by
          simp [countBundleFor]
        omega
    · rw [if_neg hfo]
      constructor
      · rw [countFetch_append, hf0]
        simp [countFetch]
      · intro d
        rw [countBundleFor_append, hb0 d]
        simp [countBundleFor]

/-- Claim C2: a device with an established session is never deferred for
retry and never occurs in a bundle-fetch round trip; `encryptMessageForDevice`
returns `ErrNoSession` exactly when no session exists and no bundle is
supplied; and in the retry pass, where a bundle is supplied, `ErrNoSession`
is unreachable. -/
theorem claim2_session_skips_fetch :
    (∀ (env : Env) (s : FullJID → Bool) (pt : List Nat) (d : FullJID) (b : Option Unit),
      (encryptMessageForDevice env s pt d b).result = .error .noSession ↔
        s d = false ∧ b = none) ∧
    (∀ (env : Env) (msgPT : List Nat) (dsmPT : Option (List Nat)) (allDevices : List FullJID)
        (j : FullJID), env.containsSession j = true →
      j ∉ (fanoutFirst env msgPT dsmPT allDevices env.containsSession).retry ∧
      ∀ ds, Event.fetchPreKeys ds ∈ (encryptMessageForDevices env allDevices msgPT dsmPT).events →
        j ∉ ds) ∧
    (∀ (env : Env) (s : FullJID → Bool) (pt : List Nat) (d : FullJID),
      (encryptMessageForDevice env s pt d (some ())).result ≠ .error .noSession) := by
  refine ⟨encDev_noSession_iff, ?_, ?_⟩
  · intro env msgPT dsmPT allDevices j hj
    have hret := fanoutFirst_retry_mem env msgPT dsmPT allDevices env.containsSession j
    have hcnt := fanoutFirst_counts env msgPT dsmPT allDevices env.containsSession
    refine ⟨fun hmem => by simp [hret hmem] at hj, ?_⟩
    intro ds hm hjds
    rcases hfr : fanoutFirst env msgPT dsmPT allDevices env.containsSession with
      ⟨nodes, retry, incl, s, evs⟩
    rw [hfr] at hret hcnt
    have hret2 : j ∈ retry → env.containsSession j = false := hret
    have hf0 : countFetch evs = 0 := hcnt.1
    rcases retry with _ | ⟨a, rl⟩
    · have hfan : encryptMessageForDevices env allDevices msgPT dsmPT = ⟨nodes, incl, evs⟩ := by
        simp only [encryptMessageForDevices, hfr]
      rw [hfan] at hm
      exact no_fetch_of_countFetch_zero evs hf0 ds hm
    · by_cases hfo : env.fetchPreKeysOk
      case pos =>
        have hfan : encryptMessageForDevices env allDevices msgPT dsmPT =
            ⟨nodes ++ (fanoutRetry env msgPT dsmPT (a :: rl) s).nodes,
              incl || (fanoutRetry env msgPT dsmPT (a :: rl) s).incl,
              (evs ++ [Event.fetchPreKeys (a :: rl)]) ++
                (fanoutRetry env msgPT dsmPT (a :: rl) s).events⟩ := by
          simp only [encryptMessageForDevices, hfr]
          rw [if_pos hfo]
        rw [hfan] at hm
        rcases List.mem_append.mp hm with hm1 | hm2
        · rcases List.mem_append.mp hm1 with hm3 | hm4
          · exact no_fetch_of_countFetch_zero evs hf0 ds hm3
          · simp only [List.mem_singleton] at hm4
            have hds : ds = a :: rl := by injection hm4
            rw [hds] at hjds
            simp [hret2 hjds] at hj
        · exact no_fetch_of_countFetch_zero _
            (fanoutRetry_counts env msgPT dsmPT (a :: rl) s).1 ds hm2
      case neg =>
        have hfan : encryptMessageForDevices env allDevices msgPT dsmPT =
            ⟨nodes, incl, evs ++ [Event.fetchPreKeys (a :: rl)]⟩ := by
          simp only [encryptMessageForDevices, hfr]
          rw [if_neg hfo]
        rw [hfan] at hm
        rcases List.mem_append.mp hm with hm1 | hm2
        · exact no_fetch_of_countFetch_zero evs hf0 ds hm1
        · simp only [List.mem_singleton] at hm2
          have hds : ds = a :: rl := by injection hm2
          rw [hds] at hjds
          simp [hret2 hjds] at hj
  · intro env s pt d h
    have := (encDev_noSession_iff env s pt d (some ())).mp h
    exact Option.noConfusion this.2

/-- Both send paths dispatch successfully whenever the account marshal and
the transport succeed. -/
theorem finishSend_ok (env : Env) (node : Node) (incl : Bool) (evs : List Event)
    (acct : List Nat) (ha : env.marshalAccount = .ok acct) (hs : env.sendNodeOk = true) :
    ∃ n, (finishSend env node incl evs).result = .ok n := by
  cases incl
  · exact ⟨node, by simp [finishSend, hs]⟩
  · exact ⟨appendDeviceIdentityNode node acct, by simp [finishSend, ha, hs]⟩

/-- Claim C10: when the single batched prekey fetch fails as a whole, the
fanout drops every deferred device and returns exactly the first-pass
envelopes and `includeIdentity` flag (with only the fetch round trip added
to the trace), and the overall send still succeeds without surfacing the
fetch error. -/
theorem claim10_whole_fetch_failure (env : Env) (hf : env.fetchPreKeysOk = false) :
    (∀ (allDevices : List FullJID) (msgPT : List Nat) (dsmPT : Option (List Nat))
        (nodes : List Node) (j : FullJID) (rl : List FullJID) (incl : Bool)
        (s : FullJID → Bool) (evs : List Event),
      fanoutFirst env msgPT dsmPT allDevices env.containsSession = ⟨nodes, j :: rl, incl, s, evs⟩ →
      encryptMessageForDevices env allDevices msgPT dsmPT =
        ⟨nodes, incl, evs ++ [.fetchPreKeys (j :: rl)]⟩) ∧
    (∀ (dest : FullJID) (msgID : String) (pr : List Nat × Option (List Nat))
        (users : List UsyncUserNode) (acct : List Nat),
      marshalMessage env dest = .ok pr → env.usyncResp = .ok users →
      env.marshalAccount = .ok acct → env.sendNodeOk = true →
      ∃ n, (sendDM env dest msgID).result = .ok n) := by
  constructor
  · intro allDevices msgPT dsmPT nodes j rl incl s evs hfr
    simp only [encryptMessageForDevices, hfr]
    rw [if_neg (by simp [hf])]
  · intro dest msgID pr users acct hm hu ha hs
    simp only [sendDM, hm, hu]
    exact finishSend_ok env _ _ _ acct ha hs

/-- Witness for C10 at a concrete environment: one deferred device, failed
batched fetch; the fanout keeps the (empty) first pass and the direct send
still succeeds. -/
theorem claim10_whole_fetch_failure_witness :
    encryptMessageForDevices envWF [jidB] [1] none = ⟨[], false, [.fetchPreKeys [jidB]]⟩ ∧
    ∃ n, (sendDM envWF jidB "m").result = .ok n :=
  ⟨(claim10_whole_fetch_failure envWF rfl).1 [jidB] [1] none [] jidB [] false
      envWF.containsSession [] rfl,
   (claim10_whole_fetch_failure envWF rfl).2 jidB "m" ([1], some [2]) [uAlice, uBob] [3]
      rfl rfl rfl rfl⟩

/-- Witness for C1 at a concrete device set. -/
theorem claim1_one_fetch_one_bundle_witness :
    countFetch (encryptMessageForDevices envW [jidA1, jidB] [1] none).events ≤ 1 ∧
    countBundleFor jidB (encryptMessageForDevices envW [jidA1, jidB] [1] none).events ≤ 1 :=
  ⟨(claim1_one_fetch_one_bundle envW [jidA1, jidB] [1] none (by decide)).1,
   (claim1_one_fetch_one_bundle envW [jidA1, jidB] [1] none (by decide)).2 jidB⟩

/-- Witness for C2 at concrete inputs: the `ErrNoSession` characterization,
the session-holding device alice/1 absent from the retry set and from the
fetched device list, and no `ErrNoSession` when a bundle is supplied. -/
theorem claim2_session_skips_fetch_witness :
    ((encryptMessageForDevice envW (fun _ => false) [] jidB none).result = .error .noSession ↔
      (fun _ : FullJID => false) jidB = false ∧ (none : Option Unit) = none) ∧
    jidA1 ∉ (fanoutFirst envW [1] none [jidA1, jidB] envW.containsSession).retry ∧
    jidA1 ∉ [jidB] ∧
    (encryptMessageForDevice envW (fun _ => false) [] jidB (some ())).result ≠ .error .noSession :=
  ⟨claim2_session_skips_fetch.1 envW (fun _ => false) [] jidB none,
   (claim2_session_skips_fetch.2.1 envW [1] none [jidA1, jidB] jidA1 (by decide)).1,
   (claim2_session_skips_fetch.2.1 envW [1] none [jidA1, jidB] jidA1 (by decide)).2 [jidB]
     (by decide),
   claim2_session_skips_fetch.2.2 envW (fun _ => false) [] jidB⟩

/-- Claim C4: `participantListHashV2` equals the reference definition from
the specification (sort lexicographically, concatenate, first 6 bytes of
SHA-256, base64 without padding, "2:" prefix), and is invariant under
permutation of its input, hence deterministic for a fixed input set. -/
theorem claim4_participant_hash (ids ids2 : List String) (hp : ids.Perm ids2) :
    participantListHashV2 ids = participantHashSpec ids ∧
    participantListHashV2 ids = participantListHashV2 ids2 := by
  constructor
  · unfold participantListHashV2 participantHashSpec
    rw [List.mergeSort_eq_insertionSort (· ≤ ·) ids]
  · unfold participantListHashV2
    rw [List.eq_of_perm_of_sorted
      ((List.mergeSort_perm ids _).trans (hp.trans (List.mergeSort_perm ids2 _).symm))
      (List.sorted_mergeSort' ids) (List.sorted_mergeSort' ids2)]

/-- Witness for C4: the hash of a concrete two-element list agrees with the
reference definition and with the hash of the transposed list. -/
theorem claim4_participant_hash_witness :
    (["b@s", "a@s"] : List String).Perm ["a@s", "b@s"] ∧
    participantListHashV2 ["b@s", "a@s"] = participantHashSpec ["b@s", "a@s"] ∧
    participantListHashV2 ["b@s", "a@s"] = participantListHashV2 ["a@s", "b@s"] :=
  ⟨by decide, (claim4_participant_hash ["b@s", "a@s"] ["a@s", "b@s"] (by decide)).1,
   (claim4_participant_hash ["b@s", "a@s"] ["a@s", "b@s"] (by decide)).2⟩

/-- Devices kept by the per-user filter differ from the session JID, and
have a positive device index when primaries are ignored. -/
theorem parseDevices_mem (sid : FullJID) (ip : Bool) (user : String) :
    ∀ (l : List (Option Int)) (d : FullJID), d ∈ parseDevices sid ip user l →
      d ≠ sid ∧ (ip = true → 0 < d.device) := by
  intro l
  induction l with
  | nil => intro d hd; simp [parseDevices] at hd
  | cons o rest ih =>
    intro d hd
    rcases o with _ | did
    · exact ih d hd
    · simp only [parseDevices] at hd
      by_cases hc : (0 < (newADJID user ((did % 256).toNat)).device ∨ ¬ ip = true) ∧
          newADJID user ((did % 256).toNat) ≠ sid
      · rw [if_pos hc] at hd
        rcases List.mem_cons.mp hd with rfl | hd2
        · exact ⟨hc.2, fun hip => hc.1.resolve_right (fun hn => hn hip)⟩
        · exact ih d hd2
      · rw [if_neg hc] at hd
        exact ih d hd

/-- Claim C7: `GetUSyncDevices` excludes device-index-0 addresses exactly
when `ignorePrimary` is set, always excludes the sender's own registered
address, and on the response alice has devices 0 and 1, bob has device 0,
with sender alice device 0, resolves to exactly alice/1 and bob/0. -/
theorem claim7_usync_filter :
    (∀ (sid : FullJID) (ip : Bool) (users : List UsyncUserNode) (d : FullJID),
      d ∈ parseUSyncDevices sid ip users → d ≠ sid) ∧
    (∀ (sid : FullJID) (users : List UsyncUserNode) (d : FullJID),
      d ∈ parseUSyncDevices sid true users → 0 < d.device) ∧
    parseUSyncDevices jidA false [uAlice, uBob] = [jidA1, jidB] := by
  have key : ∀ (sid : FullJID) (ip : Bool) (users : List UsyncUserNode) (d : FullJID),
      d ∈ parseUSyncDevices sid ip users → d ≠ sid ∧ (ip = true → 0 < d.device) := by
    intro sid ip users
    induction users with
    | nil => intro d hd; simp [parseUSyncDevices] at hd
    | cons u rest ih =>
      intro d hd
      rcases hj : u.jidAttr with _ | j
      · simp only [parseUSyncDevices, hj] at hd
        exact ih d hd
      · simp only [parseUSyncDevices, hj] at hd
        by_cases hc : u.tag = "user" ∧ u.hasDeviceList = true
        · rw [if_pos hc] at hd
          rcases List.mem_append.mp hd with hd1 | hd2
          · exact parseDevices_mem sid ip j.user u.deviceIDs d hd1
          · exact ih d hd2
        · rw [if_neg hc] at hd
          exact ih d hd
  exact ⟨fun sid ip users d hd => (key sid ip users d hd).1,
    fun sid users d hd => (key sid true users d hd).2 rfl,
    by decide⟩

/-- Witness for C7: concrete resolved devices differ from the sender's
address, and survive the primary-ignoring filter only with positive
device index. -/
theorem claim7_usync_filter_witness :
    jidB ∈ parseUSyncDevices jidA false [uAlice, uBob] ∧ jidB ≠ jidA ∧
    jidA1 ∈ parseUSyncDevices jidA true [uAlice, uBob] ∧ 0 < jidA1.device :=
  ⟨by decide, claim7_usync_filter.1 jidA false [uAlice, uBob] jidB (by decide),
   by decide, claim7_usync_filter.2.1 jidA [uAlice, uBob] jidA1 (by decide)⟩

/-- Every `encrypt` event of a whole fanout reports the cipher's
prekey-type answer for that device and establishment mode. -/
theorem fanout_encrypt_mem (env : Env) (allDevices : List FullJID) (msgPT : List Nat)
    (dsmPT : Option (List Nat)) (j : FullJID) (vb pk : Bool)
    (hm : Event.encrypt j vb pk ∈ (encryptMessageForDevices env allDevices msgPT dsmPT).events) :
    pk = env.encPreKeyType j vb := by
  have h1 := fanoutFirst_encrypt_mem env msgPT dsmPT allDevices env.containsSession j vb pk
  rcases hfr : fanoutFirst env msgPT dsmPT allDevices env.containsSession with
    ⟨nodes, retry, incl, s, evs⟩
  rw [hfr] at h1
  have h1b : Event.encrypt j vb pk ∈ evs → pk = env.encPreKeyType j vb := h1
  rcases retry with _ | ⟨a, rl⟩
  · have hfan : encryptMessageForDevices env allDevices msgPT dsmPT = ⟨nodes, incl, evs⟩ := by
      simp only [encryptMessageForDevices, hfr]
    rw [hfan] at hm
    exact h1b hm
  · by_cases hfo : env.fetchPreKeysOk
    case pos =>
      have hfan : encryptMessageForDevices env allDevices msgPT dsmPT =
          ⟨nodes ++ (fanoutRetry env msgPT dsmPT (a :: rl) s).nodes,
            incl || (fanoutRetry env msgPT dsmPT (a :: rl) s).incl,
            (evs ++ [Event.fetchPreKeys (a :: rl)]) ++
              (fanoutRetry env msgPT dsmPT (a :: rl) s).events⟩ := by
        simp only [encryptMessageForDevices, hfr]
        rw [if_pos hfo]
      rw [hfan] at hm
      rcases List.mem_append.mp hm with hm1 | hm2
      · rcases List.mem_append.mp hm1 with hm3 | hm4
        · exact h1b hm3
        · simp only [List.mem_singleton] at hm4
          exact Event.noConfusion hm4
      · exact fanoutRetry_encrypt_mem env msgPT dsmPT (a :: rl) s j vb pk hm2
    case neg =>
      have hfan : encryptMessageForDevices env allDevices msgPT dsmPT =
          ⟨nodes, incl, evs ++ [Event.fetchPreKeys (a :: rl)]⟩ := by
        simp only [encryptMessageForDevices, hfr]
        rw [if_neg hfo]
      rw [hfan] at hm
      rcases List.mem_append.mp hm with hm1 | hm2
      · exact h1b hm1
      · simp only [List.mem_singleton] at hm2
        exact Event.noConfusion hm2

/-- Counterexample to C6 as stated: in an environment whose only device has
a pre-existing session and whose cipher still reports prekey-type
ciphertext (an unacknowledged first-contact session from an earlier fanout
behaves this way), the fanout produces an envelope marked "pkmsg"
(used_bundle) although its trace contains no `ProcessBundle` and no fetch
at all — so the mark is not equivalent to bundle-based establishment during
that fanout. -/
theorem claim6_counterexample :
    encryptMessageForDevices envC6 [jidB] [1] none =
      ⟨[Node.mk "to" [("jid", .j jidB)]
          [Node.mk "enc" [("v", .s "2"), ("type", .s "pkmsg")] [] (some [1])] none],
        true, [.encrypt jidB false true]⟩ := by
  rfl

/-- Claim C6 (amended): an envelope is marked used_bundle (enc type
"pkmsg") iff the cipher reports prekey-type ciphertext for that encryption
call: every `encrypt` event of a fanout carries exactly the cipher's
prekey-type answer for its establishment mode, and a successful call's
node is the participant node built from its `isPreKey` flag, which equals
the cipher's answer, where the establishment mode records whether a bundle
was processed in that call. -/
theorem claim6_amended_pkmsg_is_cipher_type :
    (∀ (env : Env) (allDevices : List FullJID) (msgPT : List Nat) (dsmPT : Option (List Nat))
        (j : FullJID) (vb pk : Bool),
      Event.encrypt j vb pk ∈ (encryptMessageForDevices env allDevices msgPT dsmPT).events →
        pk = env.encPreKeyType j vb) ∧
    (∀ (env : Env) (s : FullJID → Bool) (pt : List Nat) (d : FullJID) (b : Option Unit)
        (r : EncResult),
      (encryptMessageForDevice env s pt d b).result = .ok r →
        r.isPreKey = env.encPreKeyType d (!(s d) && b.isSome) ∧
        r.node = encNode env d pt r.isPreKey) :=
  ⟨fanout_encrypt_mem, encDev_ok⟩

/-- Witness for the amended C6: a concrete retried device whose envelope is
marked from the cipher's prekey-type answer, and a concrete successful call
whose node is the participant node of its flag. -/
theorem claim6_amended_pkmsg_is_cipher_type_witness :
    (true = envW.encPreKeyType jidB true) ∧
    ((⟨encNode envW jidB [5] false, false⟩ : EncResult).isPreKey =
        envW.encPreKeyType jidB (!(fun _ : FullJID => true) jidB && (none : Option Unit).isSome) ∧
      (⟨encNode envW jidB [5] false, false⟩ : EncResult).node =
        encNode envW jidB [5] (⟨encNode envW jidB [5] false, false⟩ : EncResult).isPreKey) :=
  ⟨claim6_amended_pkmsg_is_cipher_type.1 envW [jidB] [1] none jidB true true (by decide),
   claim6_amended_pkmsg_is_cipher_type.2 envW (fun _ => true) [5] jidB none
     ⟨encNode envW jidB [5] false, false⟩ rfl⟩

/-- Counterexample to C8 as stated: with the group-info query succeeding and
message marshaling failing, the group send aborts with the marshal error,
but a network round trip (the group-info IQ) has already occurred before
the marshal failure — so "no network activity occurs" is false for the
group path. -/
theorem claim8_counterexample :
    (sendGroup envMarshalFail jidG "m").result = .error .marshalFail ∧
    (sendGroup envMarshalFail jidG "m").events = [.iqGroupInfo] ∧
    isNetworkEvent .iqGroupInfo = true :=
  ⟨rfl, rfl, rfl⟩

/-- Claim C8 (amended): `marshalMessage` produces the self-copy plaintext
iff the destination is non-group; a marshal failure aborts the whole send
before any encryption is attempted; on the direct path no network activity
precedes it (the trace is empty), while on the group path exactly the
group-info query has already been issued. -/
theorem claim8_amended_marshal (env : Env) (dest : FullJID) (msgID : String) :
    (∀ pr, marshalMessage env dest = .ok pr → (pr.2.isSome ↔ dest.server ≠ GroupServer)) ∧
    (env.marshalMsg = .error () →
      sendDM env dest msgID = ⟨.error .marshalFail, []⟩) ∧
    (∀ gi, env.groupInfo = .ok gi → env.marshalMsg = .error () →
      sendGroup env dest msgID = ⟨.error .marshalFail, [.iqGroupInfo]⟩) := by
  refine ⟨?_, ?_, ?_⟩
  · intro pr h
    rcases hm : env.marshalMsg with e | pt
    · have h1 : marshalMessage env dest = .error .marshalFail := by
        simp [marshalMessage, hm]
      rw [h1] at h
      exact absurd h (by simp)
    · by_cases hs : dest.server ≠ GroupServer
      · rcases hd : env.marshalDSM with e | dd
        · have h1 : marshalMessage env dest = .error .marshalFail := by
            simp [marshalMessage, hm, hs, hd]
          rw [h1] at h
          exact absurd h (by simp)
        · have h1 : marshalMessage env dest = .ok (pt, some dd) := by
            simp [marshalMessage, hm, hs, hd]
          rw [h1] at h
          have hpr : (pt, some dd) = pr := by injection h
          rw [← hpr]
          simp [hs]
      · have h1 : marshalMessage env dest = .ok (pt, none) := by
          simp [marshalMessage, hm, hs]
        rw [h1] at h
        have hpr : (pt, (none : Option (List Nat))) = pr := by injection h
        rw [← hpr]
        simpa using hs
  · intro hm
    have h1 : marshalMessage env dest = .error .marshalFail := by
      simp [marshalMessage, hm]
    simp [sendDM, h1]
  · intro gi hg hm
    have h1 : marshalMessage env dest = .error .marshalFail := by
      simp [marshalMessage, hm]
    simp [sendGroup, hg, h1]

/-- Witness for the amended C8 at concrete environments: a direct-path
marshal that produces a self-copy, a failing direct send with an empty
trace, and a failing group send whose trace is exactly the group-info
query. -/
theorem claim8_amended_marshal_witness :
    ((([1], some [2]) : List Nat × Option (List Nat)).2.isSome ↔ jidB.server ≠ GroupServer) ∧
    sendDM envMarshalFail jidB "m" = ⟨.error .marshalFail, []⟩ ∧
    sendGroup envMarshalFail jidG "m" = ⟨.error .marshalFail, [.iqGroupInfo]⟩ :=
  ⟨(claim8_amended_marshal envW jidB "m").1 ([1], some [2]) rfl,
   (claim8_amended_marshal envMarshalFail jidB "m").2.1 rfl,
   (claim8_amended_marshal envMarshalFail jidG "m").2.2 [jidA, jidB] rfl rfl⟩

/-- Claim C3: resolution-stage failures (group-info lookup, device
resolution, marshaling) abort the whole send and surface the error, while
per-device encryption failures never abort it: even when every device
fails encryption, the direct send dispatches a node with an empty
participants list and reports success. -/
theorem claim3_resolution_fatal_encryption_not :
    (∀ (env : Env) (dest : FullJID) (msgID : String), env.groupInfo = .error () →
      (sendGroup env dest msgID).result = .error .groupInfoFail) ∧
    (∀ (env : Env) (dest : FullJID) (msgID : String) (pr : List Nat × Option (List Nat)),
      marshalMessage env dest = .ok pr → env.usyncResp = .error () →
      (sendDM env dest msgID).result = .error .usyncFail) ∧
    (∀ (env : Env) (dest : FullJID) (msgID : String), env.marshalMsg = .error () →
      (sendDM env dest msgID).result = .error .marshalFail) ∧
    (∀ (env : Env) (dest : FullJID) (msgID : String) (pr : List Nat × Option (List Nat))
        (users : List UsyncUserNode),
      marshalMessage env dest = .ok pr → env.usyncResp = .ok users →
      (∀ j, env.containsSession j = true) → (∀ j, env.encryptOk j = false) →
      env.sendNodeOk = true →
      (sendDM env dest msgID).result =
        .ok (Node.mk "message" [("id", .s msgID), ("type", .s "text"), ("to", .j dest)]
          [Node.mk "participants" [] [] none] none)) := by
  refine ⟨?_, ?_, ?_, ?_⟩
  · intro env dest msgID hg
    simp [sendGroup, hg]
  · intro env dest msgID pr hm hu
    simp [sendDM, hm, hu]
  · intro env dest msgID hm
    have h1 : marshalMessage env dest = .error .marshalFail := by
      simp [marshalMessage, hm]
    simp [sendDM, h1]
  · intro env dest msgID pr users hm hu hsess henc hsend
    have hfirst := fanoutFirst_allFail env pr.1 pr.2 henc
      (parseUSyncDevices env.sessionID false users) env.containsSession hsess
    have hfan : encryptMessageForDevices env (parseUSyncDevices env.sessionID false users)
        pr.1 pr.2 = ⟨[], false, []⟩ := by
      simp only [encryptMessageForDevices, hfirst]
    simp [sendDM, hm, hu, hfan, finishSend, hsend]

/-- Witness for C3 at concrete environments: each resolution failure
aborts with its error, and with every encryption failing the direct send
dispatches the empty-participants node. -/
theorem claim3_resolution_fatal_encryption_not_witness :
    (sendGroup envGroupFail jidG "m").result = .error .groupInfoFail ∧
    (sendDM envUsyncFail jidB "m").result = .error .usyncFail ∧
    (sendDM envMarshalFail jidB "m").result = .error .marshalFail ∧
    (sendDM envAllFail jidB "m").result =
      .ok (Node.mk "message" [("id", .s "m"), ("type", .s "text"), ("to", .j jidB)]
        [Node.mk "participants" [] [] none] none) :=
  ⟨claim3_resolution_fatal_encryption_not.1 envGroupFail jidG "m" rfl,
   claim3_resolution_fatal_encryption_not.2.1 envUsyncFail jidB "m" ([1], some [2]) rfl rfl,
   claim3_resolution_fatal_encryption_not.2.2.1 envMarshalFail jidB "m" rfl,
   claim3_resolution_fatal_encryption_not.2.2.2 envAllFail jidB "m" ([1], some [2])
     [uAlice, uBob] rfl rfl (fun _ => rfl) (fun _ => rfl) rfl⟩

/-- Tag counts distribute over child-list concatenation. -/
theorem countTag_append (a b : List Node) (t : String) :
    countTag (a ++ b) t = countTag a t + countTag b t := by
  simp [countTag, List.filter_append]

/-- The dispatched node of a successful `finishSend` carries exactly one
`device-identity` child when the identity was requested and none
otherwise, provided the base node had none. -/
theorem finishSend_count (env : Env) (node : Node) (incl : Bool) (evs : List Event) (n : Node)
    (hbase : countTag node.children "device-identity" = 0)
    (h : (finishSend env node incl evs).result = .ok n) :
    countTag n.children "device-identity" = if incl then 1 else 0 := by
  cases incl
  · by_cases hsn : env.sendNodeOk = true
    · have h1 : finishSend env node false evs = ⟨.ok node, evs ++ [.sendNode]⟩ := by
        simp [finishSend, hsn]
      rw [h1] at h
      have h2 : node = n := by injection h
      rw [← h2]
      simp [hbase]
    · have h1 : finishSend env node false evs = ⟨.error .sendNodeFail, evs ++ [.sendNode]⟩ := by
        simp [finishSend, hsn]
      rw [h1] at h
      exact absurd h (by simp)
  · rcases ha : env.marshalAccount with e | acct
    · have h1 : finishSend env node true evs = ⟨.error .identityFail, evs⟩ := by
        simp [finishSend, ha]
      rw [h1] at h
      exact absurd h (by simp)
    · by_cases hsn : env.sendNodeOk = true
      · have h1 : finishSend env node true evs =
            ⟨.ok (appendDeviceIdentityNode node acct), evs ++ [.sendNode]⟩ := by
          simp [finishSend, ha, hsn]
        rw [h1] at h
        have h2 : appendDeviceIdentityNode node acct = n := by injection h
        rw [← h2]
        have h3 : (appendDeviceIdentityNode node acct).children =
            node.children ++ [Node.mk "device-identity" [] [] (some acct)] := rfl
        rw [h3, countTag_append, hbase]
        rfl
      · have h1 : finishSend env node true evs = ⟨.error .sendNodeFail, evs ++ [.sendNode]⟩ := by
          simp [finishSend, ha, hsn]
        rw [h1] at h
        exact absurd h (by simp)

/-- Claim C5: for every send, group or direct, the dispatched message node
contains exactly one `device-identity` child when the fanout reported
`includeIdentity` (any_used_bundle) and zero when it did not. -/
theorem claim5_identity_child_count :
    (∀ (env : Env) (dest : FullJID) (msgID : String) (n : Node),
      (sendDM env dest msgID).result = .ok n →
      countTag n.children "device-identity" = if (dmFanout env dest).incl then 1 else 0) ∧
    (∀ (env : Env) (dest : FullJID) (msgID : String) (n : Node),
      (sendGroup env dest msgID).result = .ok n →
      countTag n.children "device-identity" = if (groupFanout env dest).incl then 1 else 0) := by
  constructor
  · intro env dest msgID n h
    rcases hm : marshalMessage env dest with e | pr
    · rw [show sendDM env dest msgID = ⟨.error e, []⟩ from by simp [sendDM, hm]] at h
      exact absurd h (by simp)
    · rcases hu : env.usyncResp with e2 | users
      · rw [show sendDM env dest msgID = ⟨.error .usyncFail, [.iqUsync]⟩ from by
          simp [sendDM, hm, hu]] at h
        exact absurd h (by simp)
      · have hsd : sendDM env dest msgID = finishSend env
            (Node.mk "message" [("id", .s msgID), ("type", .s "text"), ("to", .j dest)]
              [Node.mk "participants" []
                (encryptMessageForDevices env (parseUSyncDevices env.sessionID false users)
                  pr.1 pr.2).nodes none] none)
            (encryptMessageForDevices env (parseUSyncDevices env.sessionID false users)
              pr.1 pr.2).incl
            ([.iqUsync] ++ (encryptMessageForDevices env
              (parseUSyncDevices env.sessionID false users) pr.1 pr.2).events) := by
          simp [sendDM, hm, hu]
        have hdf : (dmFanout env dest).incl = (encryptMessageForDevices env
            (parseUSyncDevices env.sessionID false users) pr.1 pr.2).incl := by
          simp [dmFanout, hm, hu]
        rw [hsd] at h
        rw [hdf]
        refine finishSend_count env _ _ _ n ?_ h
        rfl
  · intro env dest msgID n h
    rcases hg : env.groupInfo with e | participants
    · rw [show sendGroup env dest msgID = ⟨.error .groupInfoFail, [.iqGroupInfo]⟩ from by
        simp [sendGroup, hg]] at h
      exact absurd h (by simp)
    · rcases hm : marshalMessage env dest with e | pr
      · rw [show sendGroup env dest msgID = ⟨.error e, [.iqGroupInfo]⟩ from by
          simp [sendGroup, hg, hm]] at h
        exact absurd h (by simp)
      · by_cases hsk : env.skdCreateOk = true
        case neg =>
          rw [show sendGroup env dest msgID = ⟨.error .skdCreateFail, [.iqGroupInfo]⟩ from by
            simp [sendGroup, hg, hm, hsk]] at h
          exact absurd h (by simp)
        case pos =>
        rcases hms : env.marshalSKD with e | skdPlaintext
        · rw [show sendGroup env dest msgID = ⟨.error .skdMarshalFail, [.iqGroupInfo]⟩ from by
            simp [sendGroup, hg, hm, hsk, hms]] at h
          exact absurd h (by simp)
        · by_cases hge : env.groupEncryptOk = true
          case neg =>
            rw [show sendGroup env dest msgID = ⟨.error .groupEncryptFail, [.iqGroupInfo]⟩ from by
              simp [sendGroup, hg, hm, hsk, hms, hge]] at h
            exact absurd h (by simp)
          case pos =>
          rcases hu : env.usyncResp with e2 | users
          · rw [show sendGroup env dest msgID = ⟨.error .usyncFail, [.iqGroupInfo, .iqUsync]⟩ from by
              simp [sendGroup, hg, hm, hsk, hms, hge, hu]] at h
            exact absurd h (by simp)
          · have hsd : sendGroup env dest msgID = finishSend env
                (Node.mk "message"
                  [("id", .s msgID), ("type", .s "text"), ("to", .j dest),
                    ("phash", .s (participantListHashV2 (participants.map FullJID.toStr)))]
                  [Node.mk "participants" []
                    (encryptMessageForDevices env (parseUSyncDevices env.sessionID false users)
                      skdPlaintext none).nodes none,
                   Node.mk "enc" [("v", .s "2"), ("type", .s "skmsg")] []
                    (some env.groupCiphertext)] none)
                (encryptMessageForDevices env (parseUSyncDevices env.sessionID false users)
                  skdPlaintext none).incl
                ([.iqGroupInfo, .iqUsync] ++ (encryptMessageForDevices env
                  (parseUSyncDevices env.sessionID false users) skdPlaintext none).events) := by
              simp [sendGroup, hg, hm, hsk, hms, hge, hu]
            have hdf : (groupFanout env dest).incl = (encryptMessageForDevices env
                (parseUSyncDevices env.sessionID false users) skdPlaintext none).incl := by
              simp [groupFanout, hg, hm, hsk, hms, hge, hu]
            rw [hsd] at h
            rw [hdf]
            refine finishSend_count env _ _ _ n ?_ h
            rfl

/-- Witness for C5: the concrete direct and group sends of the baseline
environment, whose fanouts use a bundle, carry exactly one
device-identity child. -/
theorem claim5_identity_child_count_witness :
    countTag ((sendDM envW jidB "m").result.toOption.getD (Node.mk "" [] [] none)).children
        "device-identity" = (if (dmFanout envW jidB).incl then 1 else 0) ∧
    countTag ((sendGroup envW jidG "m").result.toOption.getD (Node.mk "" [] [] none)).children
        "device-identity" = (if (groupFanout envW jidG).incl then 1 else 0) :=
  ⟨claim5_identity_child_count.1 envW jidB "m" _ rfl,
   claim5_identity_child_count.2 envW jidG "m" _ rfl⟩

/-- The dispatched node of a successful `finishSend` is the base node,
possibly with one device-identity child appended. -/
theorem finishSend_node (env : Env) (node : Node) (incl : Bool) (evs : List Event) (n : Node)
    (h : (finishSend env node incl evs).result = .ok n) :
    n = node ∨ ∃ acct, n = appendDeviceIdentityNode node acct := by
  cases incl
  · by_cases hsn : env.sendNodeOk = true
    · have h1 : finishSend env node false evs = ⟨.ok node, evs ++ [.sendNode]⟩ := by
        simp [finishSend, hsn]
      rw [h1] at h
      have h2 : node = n := by injection h
      exact Or.inl h2.symm
    · have h1 : finishSend env node false evs = ⟨.error .sendNodeFail, evs ++ [.sendNode]⟩ := by
        simp [finishSend, hsn]
      rw [h1] at h
      exact absurd h (by simp)
  · rcases ha : env.marshalAccount with e | acct
    · have h1 : finishSend env node true evs = ⟨.error .identityFail, evs⟩ := by
        simp [finishSend, ha]
      rw [h1] at h
      exact absurd h (by simp)
    · by_cases hsn : env.sendNodeOk = true
      · have h1 : finishSend env node true evs =
            ⟨.ok (appendDeviceIdentityNode node acct), evs ++ [.sendNode]⟩ := by
          simp [finishSend, ha, hsn]
        rw [h1] at h
        have h2 : appendDeviceIdentityNode node acct = n := by injection h
        exact Or.inr ⟨acct, h2.symm⟩
      · have h1 : finishSend env node true evs = ⟨.error .sendNodeFail, evs ++ [.sendNode]⟩ := by
          simp [finishSend, ha, hsn]
        rw [h1] at h
        exact absurd h (by simp)

/-- A list of nodes none of which is an skmsg enc entry contributes no
sender-key distribution entries. -/
theorem countSkmsgTop_eq_zero (l : List Node) (h : ∀ nn ∈ l, isSkmsgEnc nn = false) :
    countSkmsgTop l = 0 := by
  have h2 : l.filter isSkmsgEnc = [] := by
    rw [List.filter_eq_nil_iff]
    intro a ha
    simp [h a ha]
  simp [countSkmsgTop, h2]

/-- Claim C9: the node of a group send carries a phash attribute and
exactly one sender-key distribution entry (enc child of type "skmsg")
among its children, while the node of a direct send carries no phash
attribute and no sender-key distribution entry anywhere in its tree. -/
theorem claim9_group_dm_node_shape :
    (∀ (env : Env) (dest : FullJID) (msgID : String) (n : Node),
      (sendGroup env dest msgID).result = .ok n →
      (n.attrs.lookup "phash").isSome = true ∧ countSkmsgTop n.children = 1) ∧
    (∀ (env : Env) (dest : FullJID) (msgID : String) (n : Node),
      (sendDM env dest msgID).result = .ok n →
      n.attrs.lookup "phash" = none ∧ skmsgFree3 n = true) := by
  constructor
  · intro env dest msgID n h
    rcases hg : env.groupInfo with e | participants
    · rw [show sendGroup env dest msgID = ⟨.error .groupInfoFail, [.iqGroupInfo]⟩ from by
        simp [sendGroup, hg]] at h
      exact absurd h (by simp)
    · rcases hm : marshalMessage env dest with e | pr
      · rw [show sendGroup env dest msgID = ⟨.error e, [.iqGroupInfo]⟩ from by
          simp [sendGroup, hg, hm]] at h
        exact absurd h (by simp)
      · by_cases hsk : env.skdCreateOk = true
        case neg =>
          rw [show sendGroup env dest msgID = ⟨.error .skdCreateFail, [.iqGroupInfo]⟩ from by
            simp [sendGroup, hg, hm, hsk]] at h
          exact absurd h (by simp)
        case pos =>
        rcases hms : env.marshalSKD with e | skdPlaintext
        · rw [show sendGroup env dest msgID = ⟨.error .skdMarshalFail, [.iqGroupInfo]⟩ from by
            simp [sendGroup, hg, hm, hsk, hms]] at h
          exact absurd h (by simp)
        · by_cases hge : env.groupEncryptOk = true
          case neg =>
            rw [show sendGroup env dest msgID = ⟨.error .groupEncryptFail, [.iqGroupInfo]⟩ from by
              simp [sendGroup, hg, hm, hsk, hms, hge]] at h
            exact absurd h (by simp)
          case pos =>
          rcases hu : env.usyncResp with e2 | users
          · rw [show sendGroup env dest msgID = ⟨.error .usyncFail, [.iqGroupInfo, .iqUsync]⟩ from by
              simp [sendGroup, hg, hm, hsk, hms, hge, hu]] at h
            exact absurd h (by simp)
          · have hsd : sendGroup env dest msgID = finishSend env
                (Node.mk "message"
                  [("id", .s msgID), ("type", .s "text"), ("to", .j dest),
                    ("phash", .s (participantListHashV2 (participants.map FullJID.toStr)))]
                  [Node.mk "participants" []
                    (encryptMessageForDevices env (parseUSyncDevices env.sessionID false users)
                      skdPlaintext none).nodes none,
                   Node.mk "enc" [("v", .s "2"), ("type", .s "skmsg")] []
                    (some env.groupCiphertext)] none)
                (encryptMessageForDevices env (parseUSyncDevices env.sessionID false users)
                  skdPlaintext none).incl
                ([.iqGroupInfo, .iqUsync] ++ (encryptMessageForDevices env
                  (parseUSyncDevices env.sessionID false users) skdPlaintext none).events) := by
              simp [sendGroup, hg, hm, hsk, hms, hge, hu]
            rw [hsd] at h
            rcases finishSend_node env _ _ _ n h with rfl | ⟨acct, rfl⟩
            · exact ⟨rfl, rfl⟩
            · exact ⟨rfl, rfl⟩
  · intro env dest msgID n h
    rcases hm : marshalMessage env dest with e | pr
    · rw [show sendDM env dest msgID = ⟨.error e, []⟩ from by simp [sendDM, hm]] at h
      exact absurd h (by simp)
    · rcases hu : env.usyncResp with e2 | users
      · rw [show sendDM env dest msgID = ⟨.error .usyncFail, [.iqUsync]⟩ from by
          simp [sendDM, hm, hu]] at h
        exact absurd h (by simp)
      · have hsd : sendDM env dest msgID = finishSend env
            (Node.mk "message" [("id", .s msgID), ("type", .s "text"), ("to", .j dest)]
              [Node.mk "participants" []
                (encryptMessageForDevices env (parseUSyncDevices env.sessionID false users)
                  pr.1 pr.2).nodes none] none)
            (encryptMessageForDevices env (parseUSyncDevices env.sessionID false users)
              pr.1 pr.2).incl
            ([.iqUsync] ++ (encryptMessageForDevices env
              (parseUSyncDevices env.sessionID false users) pr.1 pr.2).events) := by
          simp [sendDM, hm, hu]
        rw [hsd] at h
        have hsh := fanout_nodes_shape env (parseUSyncDevices env.sessionID false users) pr.1 pr.2
        rcases finishSend_node env _ _ _ n h with rfl | ⟨acct, rfl⟩
        · refine ⟨rfl, ?_⟩
          simp only [skmsgFree3, Bool.and_eq_true, List.all_eq_true, decide_eq_true_eq]
          refine ⟨rfl, ?_⟩
          intro c hc
          simp only [Node.children, List.mem_singleton] at hc
          subst hc
          refine ⟨countSkmsgTop_eq_zero _ (fun nn hnn => by simp [isSkmsgEnc, (hsh nn hnn).1]), ?_⟩
          intro g hg2
          exact (hsh g hg2).2.1
        · refine ⟨rfl, ?_⟩
          simp only [skmsgFree3, Bool.and_eq_true, List.all_eq_true, decide_eq_true_eq]
          refine ⟨rfl, ?_⟩
          intro c hc
          simp only [appendDeviceIdentityNode, Node.children, List.mem_append,
            List.mem_singleton] at hc
          rcases hc with hc | hc
          · subst hc
            refine ⟨countSkmsgTop_eq_zero _ (fun nn hnn => by simp [isSkmsgEnc, (hsh nn hnn).1]), ?_⟩
            intro g hg2
            exact (hsh g hg2).2.1
          · subst hc
            exact ⟨rfl, fun g hg2 => absurd hg2 (by simp [Node.children])⟩

/-- Witness for C9: the concrete group send carries a phash attribute and
one skmsg entry; the concrete direct send carries neither. -/
theorem claim9_group_dm_node_shape_witness :
    ((((sendGroup envW jidG "m").result.toOption.getD (Node.mk "" [] [] none)).attrs.lookup
        "phash").isSome = true ∧
      countSkmsgTop ((sendGroup envW jidG "m").result.toOption.getD
        (Node.mk "" [] [] none)).children = 1) ∧
    (((sendDM envW jidB "m").result.toOption.getD (Node.mk "" [] [] none)).attrs.lookup
        "phash" = none ∧
      skmsgFree3 ((sendDM envW jidB "m").result.toOption.getD (Node.mk "" [] [] none)) = true) :=
  ⟨claim9_group_dm_node_shape.1 envW jidG "m" _ rfl,
   claim9_group_dm_node_shape.2 envW jidB "m" _ rfl⟩
